import Mathlib

/-!
Verification of the django-image-assets asset policy and validation engine.

The Python sources are shallowly embedded: the content validator
(`image_assets/models.py` validation methods and
`image_assets/validators.py` `AssetValidator`), the asset-type registry
query (`AssetTypeManager.get_required`), the attachment-set reconciler
(`AssetFormSet.clean` in `image_assets/forms.py`) and the soft-delete /
recovery lifecycle (`image_assets/signals.py` receivers and
`DeletedAsset.recover`). Machine integers become `Nat`/`Int`, Python
floats become `Rat`, fallible code returns `Except`.
-/

set_option autoImplicit false

namespace ImageAssets

/-- The two flags of the `formats` BitField on `AssetType`
(`FORMAT_CHOICES = (JPEG, PNG)`). -/
structure Formats where
  jpeg : Bool
  png : Bool
deriving DecidableEq, Repr

/-- Python truthiness of the bitfield value: nonzero iff some flag is set
(`if self.formats and ...`). -/
def Formats.isSet (f : Formats) : Bool := f.jpeg || f.png

/-- Lookup `set_flags.get(fmt)` for a lowercased format name: flags exist
only for the keys "jpeg" and "png", any other key yields `None` (falsy). -/
def Formats.flagFor (f : Formats) (fmt : String) : Bool :=
  if fmt = "jpeg" then f.jpeg else if fmt = "png" then f.png else false

/-- One content-validation error message, with the arguments interpolated
into the message by the Python code. -/
inductive ContentViolation where
  | fileTooLarge (max_size : ℤ)
  | badFormat (formats : Formats)
  | widthTooSmall (min_width : ℤ)
  | heightTooSmall (min_height : ℤ)
  | badAspect (aspect : ℚ)
  | badAspectAccuracy (aspect accuracy : ℚ)
deriving DecidableEq, Repr

/-- The `AssetType` model: a named validation policy
(`image_assets/models.py`). `required_for` / `allowed_for` hold the ids of
the content types (host kinds) related through the two many-to-many
fields. -/
structure AssetType where
  pk : ℕ
  slug : String
  formats : Formats
  min_width : ℤ
  min_height : ℤ
  aspect : ℚ
  accuracy : ℚ
  max_size : ℤ
  required_for : List ℕ
  allowed_for : List ℕ
deriving DecidableEq, Repr

/-- A decoded image file as seen by the validation methods: `PIL` exposes
`format`, `width` and `height`. -/
structure DecodedImage where
  format : String
  width : ℕ
  height : ℕ
deriving DecidableEq, Repr

/-- The `FieldFile` handed to `AssetValidator.__call__`: its byte size,
and the result of trying to decode it (`Image.open` raises on an
undecodable container, embedded as `none`). -/
structure FieldFile where
  size : ℕ
  decoded : Option DecodedImage
deriving DecidableEq, Repr

/-- `AssetType.validate_max_size`: a violation iff `max_size` and
`value.size` are both truthy (nonzero) and `max_size < value.size`. -/
def AssetType.validate_max_size (t : AssetType) (value : FieldFile) :
    List ContentViolation :=
  if t.max_size ≠ 0 ∧ value.size ≠ 0 ∧ t.max_size < (value.size : ℤ) then
    [.fileTooLarge t.max_size]
  else []

/-- `AssetType.validate_format`: with a nonzero format bitfield, a
violation unless the flag for the file's lowercased format name is set. -/
def AssetType.validate_format (t : AssetType) (file : DecodedImage) :
    List ContentViolation :=
  let fmt := file.format.toLower
  if t.formats.isSet ∧ ¬ t.formats.flagFor fmt then [.badFormat t.formats]
  else []

/-- `AssetType.validate_dimensions`: independent minimum checks on width
and height, each skipped when the corresponding image dimension is 0
(falsy). -/
def AssetType.validate_dimensions (t : AssetType) (file : DecodedImage) :
    List ContentViolation :=
  (if file.width ≠ 0 ∧ (file.width : ℤ) < t.min_width then
    [.widthTooSmall t.min_width]
  else []) ++
  (if file.height ≠ 0 ∧ (file.height : ℤ) < t.min_height then
    [.heightTooSmall t.min_height]
  else [])

/-- Python's built-in `round` on an exact rational: round half to even. -/
def pyRound (x : ℚ) : ℤ :=
  let f := x.floor
  let r := x - (f : ℚ)
  if r < 1/2 then f
  else if 1/2 < r then f + 1
  else if f % 2 = 0 then f else f + 1

/-- `AssetType.validate_aspect`: no check unless width, height and target
aspect are all nonzero; with `accuracy == 0` an exact comparison of the
actual ratio against `aspect`, otherwise a violation iff
`round(delta / accuracy) > 1`. -/
def AssetType.validate_aspect (t : AssetType) (file : DecodedImage) :
    List ContentViolation :=
  if file.width = 0 ∨ file.height = 0 ∨ t.aspect = 0 then []
  else
    let image_aspect : ℚ := (file.width : ℚ) / (file.height : ℚ)
    let delta := |image_aspect - t.aspect|
    if t.accuracy = 0 then
      if image_aspect ≠ t.aspect then [.badAspect t.aspect] else []
    else if 1 < pyRound (delta / t.accuracy) then
      [.badAspectAccuracy t.aspect t.accuracy]
    else []

/-- `AssetType.get_validators`: the list of checks run against the opened
file, in source order (the file argument is unused by the source too). -/
def AssetType.get_validators (t : AssetType) (_file : DecodedImage) :
    List (DecodedImage → List ContentViolation) :=
  [t.validate_format, t.validate_dimensions, t.validate_aspect]

/-- Outcome of `AssetValidator.__call__` when it does not return
normally: the decode exception escaping `open_file`, or the
`ValidationError` raised with the accumulated message list. -/
inductive ValidatorError where
  | decodeError
  | validationError (errors : List ContentViolation)
deriving DecidableEq, Repr

/-- `AssetValidator.__call__` (`image_assets/validators.py`): skip
entirely when the asset has no `asset_type_id`; otherwise start from the
max-size errors, open the file (an undecodable container raises), extend
with every validator from `get_validators`, and raise iff the accumulated
list is nonempty. -/
def AssetValidator (asset_type : Option AssetType) (value : FieldFile) :
    Except ValidatorError Unit :=
  match asset_type with
  | none => .ok ()
  | some t =>
    let errors := t.validate_max_size value
    match value.decoded with
    | none => .error .decodeError
    | some file =>
      let errors := (t.get_validators file).foldl
        (fun es v => es ++ v file) errors
      if errors = [] then .ok () else .error (.validationError errors)

/-- The `Asset` model: one attached file instance
(`image_assets/models.py`). `content_type_id` is the id of the host kind
and `object_id` the host row's primary key. -/
structure Asset where
  pk : ℕ
  image : String
  asset_type_id : ℕ
  active : Bool
  content_type_id : ℕ
  object_id : ℤ
deriving DecidableEq, Repr

/-- The relational store as seen by `AssetTypeManager`: the stored asset
types and the stored assets. -/
structure DB where
  asset_types : List AssetType
  assets : List Asset

/-- The argument of `AssetTypeManager.get_required`: `None`, a model
class (kind only), or a model instance with its kind and an optional
primary key (`instance.pk is None` for an unsaved instance). -/
inductive HostArg where
  | noModel
  | model (kind : ℕ)
  | inst (kind : ℕ) (pk : Option ℤ)

/-- `AssetTypeManager.get_required`: all types for `None`; the types
whose `required_for` contains the content type for a model class or an
unsaved instance; for a saved instance additionally excluding every type
some stored active asset of the instance already has. -/
def get_required (db : DB) (arg : HostArg) : List AssetType :=
  match arg with
  | .noModel => db.asset_types
  | .model k => db.asset_types.filter (fun t => decide (k ∈ t.required_for))
  | .inst k pk =>
    let required := db.asset_types.filter (fun t => decide (k ∈ t.required_for))
    match pk with
    | none => required
    | some p =>
      let existing := (db.assets.filter (fun a =>
        a.active && decide (a.content_type_id = k) &&
          decide (a.object_id = p))).map (fun a => a.asset_type_id)
      required.filter (fun t => decide (t.pk ∉ existing))

/-- One row of the formset's `cleaned_data` as read by
`AssetFormSet.clean`: the `active` flag and the chosen asset type's
primary key (`none` for an incomplete/blank row). -/
structure AssetFormRow where
  active : Bool
  asset_type : Option ℕ
deriving DecidableEq, Repr

/-- A set-level violation raised by `AssetFormSet.clean`, carrying the
primary keys of the offending asset types. -/
inductive SetViolation where
  | missingRequired (pks : Finset ℕ)
  | duplicateActive (pks : Finset ℕ)
deriving DecidableEq

/-- One step of the loop in `AssetFormSet.clean` over `cleaned_data`,
acting on the pair of the `added_asset_types` and
`duplicated_asset_types` accumulators: inactive rows and rows without an
asset type are skipped; an active typed row marks its type duplicated if
already added, and adds it. -/
def scanStep (st : Finset ℕ × Finset ℕ) (row : AssetFormRow) :
    Finset ℕ × Finset ℕ :=
  if row.active then
    match row.asset_type with
    | none => st
    | some t => (insert t st.1, if t ∈ st.1 then insert t st.2 else st.2)
  else st

/-- The full loop of `AssetFormSet.clean`, started from two empty
accumulator sets. -/
def scanRows (rows : List AssetFormRow) : Finset ℕ × Finset ℕ :=
  rows.foldl scanStep (∅, ∅)

/-- The error accounting of `AssetFormSet.clean` given the required
asset-type pks: a missing-required violation when some required type was
not added, then a duplicate violation when some type was duplicated,
both collected into one error list. -/
def formset_clean (required : Finset ℕ) (rows : List AssetFormRow) :
    List SetViolation :=
  let added := (scanRows rows).1
  let dup := (scanRows rows).2
  let missing := required \ added
  (if missing ≠ ∅ then [SetViolation.missingRequired missing] else []) ++
    (if dup ≠ ∅ then [SetViolation.duplicateActive dup] else [])

/-- The required set used by `AssetFormSet.clean`:
`set(get_required(instance).values_list('pk'))` for the saved host
instance of the formset. -/
def required_pks (db : DB) (k : ℕ) (p : ℤ) : Finset ℕ :=
  ((get_required db (.inst k (some p))).map (fun t => t.pk)).toFinset

/-- `AssetFormSet.clean` for the formset of a saved host instance of kind
`k` with primary key `p`: the reconciler of the candidate asset set. -/
def reconcile (db : DB) (k : ℕ) (p : ℤ) (rows : List AssetFormRow) :
    List SetViolation :=
  formset_clean (required_pks db k p) rows

/-- Number of active candidate rows carrying asset type `t`. -/
def countActive (rows : List AssetFormRow) (t : ℕ) : ℕ :=
  (rows.filter (fun r => r.active && (r.asset_type == some t))).length

/-- Turn row number `i` of the candidate list inactive, keeping every
other row (and the row's own asset type) fixed. -/
def deactivate : List AssetFormRow → ℕ → List AssetFormRow
  | [], _ => []
  | r :: rs, 0 => ⟨false, r.asset_type⟩ :: rs
  | r :: rs, n + 1 => r :: deactivate rs n

/-- The `DeletedAsset` model: a retained copy of a removed asset's file
(`image_assets/models.py`), with the same fields but no `active` flag. -/
structure DeletedAsset where
  pk : ℕ
  image : String
  asset_type_id : ℕ
  content_type_id : ℕ
  object_id : ℤ
deriving DecidableEq, Repr

/-- The store rows touched by the soft-delete lifecycle, with the next
primary key the store will assign. -/
structure StoreState where
  assets : List Asset
  deleted_assets : List DeletedAsset
  next_pk : ℕ
deriving DecidableEq, Repr

/-- A call into the blob store performed by an operation. The lifecycle
only ever issues deletions (`instance.image.delete(save=False)`). -/
inductive BlobOp where
  | deleteBlob (ref : String)
deriving DecidableEq, Repr

/-- Deleting an `Asset`: the `pre_delete` receiver
`move_asset_file_to_deleted_asset` (`image_assets/signals.py`) creates a
`DeletedAsset` with the instance's image, content type, object id and
asset type, then the asset row is removed. No blob-store call is made. -/
def delete_asset (s : StoreState) (a : Asset) : StoreState × List BlobOp :=
  ({ assets := s.assets.filter (fun x => x.pk != a.pk),
     deleted_assets := s.deleted_assets ++
       [DeletedAsset.mk s.next_pk a.image a.asset_type_id a.content_type_id
         a.object_id],
     next_pk := s.next_pk + 1 }, [])

/-- Deleting a `DeletedAsset`: the `pre_delete` receiver
`delete_asset_file_for_deleted_asset` purges the file from storage
(`instance.image.delete(save=False)`), then the row is removed. -/
def delete_deleted_asset (s : StoreState) (d : DeletedAsset) :
    StoreState × List BlobOp :=
  ({ assets := s.assets,
     deleted_assets := s.deleted_assets.filter (fun x => x.pk != d.pk),
     next_pk := s.next_pk }, [BlobOp.deleteBlob d.image])

/-- `DeletedAsset.recover` (`image_assets/models.py`): create a new
`Asset` with `active=False` and the deleted asset's image, asset type and
host identity, then remove the `DeletedAsset` row through `_raw_delete`,
which skips the `pre_delete` signal and hence never touches the blob
store. Returns the created asset. -/
def recover (s : StoreState) (d : DeletedAsset) :
    (StoreState × Asset) × List BlobOp :=
  let asset := Asset.mk s.next_pk d.image d.asset_type_id false
    d.content_type_id d.object_id
  (({ assets := s.assets ++ [asset],
      deleted_assets := s.deleted_assets.filter (fun x => x.pk != d.pk),
      next_pk := s.next_pk + 1 }, asset), [])

/-- The computable floor on `Rat` agrees with the `FloorRing` floor. -/
lemma rat_floor_eq (q : ℚ) : q.floor = ⌊q⌋ := rfl

/-- Membership in `get_required` for a saved instance, spelled out over
the store. -/
lemma mem_get_required_inst (db : DB) (k : ℕ) (p : ℤ) (t : AssetType) :
    t ∈ get_required db (.inst k (some p)) ↔
      t ∈ db.asset_types ∧ k ∈ t.required_for ∧
      ¬ ∃ a ∈ db.assets, a.active = true ∧ a.content_type_id = k ∧
        a.object_id = p ∧ a.asset_type_id = t.pk := by
  simp only [get_required, List.mem_filter, decide_eq_true_eq, List.mem_map,
    Bool.and_eq_true, not_exists, and_assoc]

/-- Unfolding of `countActive` over a cons cell. -/
lemma countActive_cons (r : AssetFormRow) (rs : List AssetFormRow) (t : ℕ) :
    countActive (r :: rs) t =
      (if r.active = true ∧ r.asset_type = some t then 1 else 0) +
        countActive rs t := by
  simp only [countActive, List.filter_cons]
  by_cases h : r.active = true ∧ r.asset_type = some t
  · rw [if_pos (by simp [h.1, h.2]), if_pos h]
    simp [Nat.add_comm]
  · rw [if_neg (by simpa using h), if_neg h]
    simp

/-- The `added_asset_types` accumulator after the loop holds `t` iff it
held it before, or some active row carries type `t`. -/
lemma scan_fst_mem (rows : List AssetFormRow) (a d : Finset ℕ) (t : ℕ) :
    t ∈ (List.foldl scanStep (a, d) rows).1 ↔
      t ∈ a ∨ 1 ≤ countActive rows t := by
  induction rows generalizing a d with
  | nil => simp [countActive]
  | cons r rs ih =>
    rw [List.foldl_cons]
    by_cases hact : r.active = true
    · cases hty : r.asset_type with
      | none =>
        have hc : countActive (r :: rs) t = countActive rs t := by
          rw [countActive_cons]
          simp [hty]
        simp [scanStep, hact, hty, ih, hc]
      | some u =>
        by_cases htu : u = t
        · subst htu
          have hc : countActive (r :: rs) u = 1 + countActive rs u := by
            rw [countActive_cons]
            simp [hact, hty]
          rw [hc]
          simp only [scanStep, hact, if_true, hty, ih, Finset.mem_insert]
          constructor
          · rintro ((h | h) | h)
            · exact Or.inr (by omega)
            · exact Or.inl h
            · exact Or.inr (by omega)
          · rintro (h | h)
            · exact Or.inl (Or.inr h)
            · exact Or.inl (Or.inl trivial)
        · have hc : countActive (r :: rs) t = countActive rs t := by
            rw [countActive_cons]
            simp [hty, htu]
          rw [hc]
          simp only [scanStep, hact, if_true, hty, ih, Finset.mem_insert]
          constructor
          · rintro ((h | h) | h)
            · exact absurd h (fun hh => htu hh.symm)
            · exact Or.inl h
            · exact Or.inr h
          · rintro (h | h)
            · exact Or.inl (Or.inr h)
            · exact Or.inr h
    · have hc : countActive (r :: rs) t = countActive rs t := by
        rw [countActive_cons]
        simp [hact]
      simp [scanStep, hact, ih, hc]

/-- The `duplicated_asset_types` accumulator after the loop holds `t` iff
it held it before, or `t` was already added and occurs actively, or at
least two active rows carry type `t`. -/
lemma scan_snd_mem (rows : List AssetFormRow) (a d : Finset ℕ) (t : ℕ) :
    t ∈ (List.foldl scanStep (a, d) rows).2 ↔
      t ∈ d ∨ (t ∈ a ∧ 1 ≤ countActive rows t) ∨ 2 ≤ countActive rows t := by
  induction rows generalizing a d with
  | nil => simp [countActive]
  | cons r rs ih =>
    rw [List.foldl_cons]
    by_cases hact : r.active = true
    · cases hty : r.asset_type with
      | none =>
        have hc : countActive (r :: rs) t = countActive rs t := by
          rw [countActive_cons]
          simp [hty]
        simp [scanStep, hact, hty, ih, hc]
      | some u =>
        by_cases htu : u = t
        · subst htu
          have hc : countActive (r :: rs) u = 1 + countActive rs u := by
            rw [countActive_cons]
            simp [hact, hty]
          rw [hc]
          by_cases hua : u ∈ a
          · simp only [scanStep, hact, if_true, hty, if_pos hua, ih,
              Finset.mem_insert]
            constructor
            · intro h
              exact Or.inr (Or.inl ⟨hua, by omega⟩)
            · intro h
              exact Or.inl (Or.inl trivial)
          · simp only [scanStep, hact, if_true, hty, if_neg hua, ih,
              Finset.mem_insert]
            constructor
            · rintro (h | ⟨hu, hcnt⟩ | h)
              · exact Or.inl h
              · exact Or.inr (Or.inr (by omega))
              · exact Or.inr (Or.inr (by omega))
            · rintro (h | ⟨ha2, hcnt⟩ | h)
              · exact Or.inl h
              · exact absurd ha2 hua
              · rcases Nat.lt_or_ge (countActive rs u) 1 with hcnt | hcnt
                · omega
                · exact Or.inr (Or.inl ⟨Or.inl trivial, hcnt⟩)
        · have hc : countActive (r :: rs) t = countActive rs t := by
            rw [countActive_cons]
            simp [hty, htu]
          rw [hc]
          by_cases hua : u ∈ a
          · simp only [scanStep, hact, if_true, hty, if_pos hua, ih,
              Finset.mem_insert]
            constructor
            · rintro ((h | h) | ⟨(h2 | h2), hcnt⟩ | h)
              · exact absurd h (fun hh => htu hh.symm)
              · exact Or.inl h
              · exact absurd h2 (fun hh => htu hh.symm)
              · exact Or.inr (Or.inl ⟨h2, hcnt⟩)
              · exact Or.inr (Or.inr h)
            · rintro (h | ⟨ha2, hcnt⟩ | h)
              · exact Or.inl (Or.inr h)
              · exact Or.inr (Or.inl ⟨Or.inr ha2, hcnt⟩)
              · exact Or.inr (Or.inr h)
          · simp only [scanStep, hact, if_true, hty, if_neg hua, ih,
              Finset.mem_insert]
            constructor
            · rintro (h | ⟨(h2 | h2), hcnt⟩ | h)
              · exact Or.inl h
              · exact absurd h2 (fun hh => htu hh.symm)
              · exact Or.inr (Or.inl ⟨h2, hcnt⟩)
              · exact Or.inr (Or.inr h)
            · rintro (h | ⟨ha2, hcnt⟩ | h)
              · exact Or.inl h
              · exact Or.inr (Or.inl ⟨Or.inr ha2, hcnt⟩)
              · exact Or.inr (Or.inr h)
    · have hc : countActive (r :: rs) t = countActive rs t := by
        rw [countActive_cons]
        simp [hact]
      simp [scanStep, hact, ih, hc]

/-- Membership characterization of the added set of the whole scan. -/
lemma scanRows_fst_mem (rows : List AssetFormRow) (t : ℕ) :
    t ∈ (scanRows rows).1 ↔ 1 ≤ countActive rows t := by
  simp [scanRows, scan_fst_mem]

/-- Membership characterization of the duplicated set of the whole
scan. -/
lemma scanRows_snd_mem (rows : List AssetFormRow) (t : ℕ) :
    t ∈ (scanRows rows).2 ↔ 2 ≤ countActive rows t := by
  simp [scanRows, scan_snd_mem]

/-- The error list of `formset_clean` is empty iff nothing required is
missing and nothing is duplicated. -/
lemma formset_clean_eq_nil (required : Finset ℕ) (rows : List AssetFormRow) :
    formset_clean required rows = [] ↔
      required \ (scanRows rows).1 = ∅ ∧ (scanRows rows).2 = ∅ := by
  simp only [formset_clean]
  by_cases h1 : required \ (scanRows rows).1 = ∅ <;>
    by_cases h2 : (scanRows rows).2 = ∅ <;>
    simp [h1, h2]

/-- C1: for a decoded file, the aspect check produces a violation iff:
with `accuracy == 0`, the actual ratio `width / height` differs from
`aspect`; with `accuracy > 0`, `round(|width / height - aspect| /
accuracy) > 1`. When width, height or `aspect` is zero, no aspect
violation is produced. -/
theorem validate_aspect_spec (t : AssetType) (file : DecodedImage) :
    (file.width = 0 ∨ file.height = 0 ∨ t.aspect = 0 →
      t.validate_aspect file = []) ∧
    (file.width ≠ 0 → file.height ≠ 0 → t.aspect ≠ 0 →
      (t.accuracy = 0 →
        (t.validate_aspect file ≠ [] ↔
          (file.width : ℚ) / (file.height : ℚ) ≠ t.aspect)) ∧
      (0 < t.accuracy →
        (t.validate_aspect file ≠ [] ↔
          1 < pyRound ((|(file.width : ℚ) / (file.height : ℚ) - t.aspect|) /
            t.accuracy)))) := by
  constructor
  · intro h
    simp only [AssetType.validate_aspect, if_pos h]
  · intro hw hh ha
    have hcond : ¬ (file.width = 0 ∨ file.height = 0 ∨ t.aspect = 0) := by
      push_neg
      exact ⟨hw, hh, ha⟩
    constructor
    · intro hacc
      simp only [AssetType.validate_aspect, if_neg hcond, if_pos hacc]
      by_cases heq : (file.width : ℚ) / (file.height : ℚ) = t.aspect
      · simp [heq]
      · simp [heq]
    · intro hacc
      have hacc0 : ¬ t.accuracy = 0 := ne_of_gt hacc
      simp only [AssetType.validate_aspect, if_neg hcond, if_neg hacc0]
      by_cases hr : 1 < pyRound
          ((|(file.width : ℚ) / (file.height : ℚ) - t.aspect|) / t.accuracy)
      · simp [hr]
      · simp [hr]

/-- Witness for C1, on the spec's own example: target aspect 2 with
accuracy 1/10 rejects a 180 by 100 image (deviation 2/10, which is two
accuracy units). -/
theorem validate_aspect_spec_witness :
    (AssetType.mk 0 "cover" ⟨false, false⟩ 0 0 2 (1/10) 0 [] []).validate_aspect
      (DecodedImage.mk "png" 180 100) ≠ [] :=
  ((validate_aspect_spec
      (AssetType.mk 0 "cover" ⟨false, false⟩ 0 0 2 (1/10) 0 [] [])
      (DecodedImage.mk "png" 180 100)).2
    (by decide) (by decide) (by norm_num)).2 (by norm_num) |>.mpr (by
      have h : (|((180 : ℕ) : ℚ) / ((100 : ℕ) : ℚ) - 2|) / (1/10) = 2 := by
        rw [show ((180 : ℕ) : ℚ) / ((100 : ℕ) : ℚ) - 2 = -(1/5) by norm_num,
          abs_neg, abs_of_nonneg (by norm_num : (0:ℚ) ≤ 1/5)]
        norm_num
      rw [h]
      simp only [pyRound, rat_floor_eq]
      norm_num)

/-- C5: with an asset type set, an input file whose container cannot be
decoded always surfaces the decode failure as an error to the caller; it
never passes validation silently. -/
theorem asset_validator_decode_failure (t : AssetType) (value : FieldFile)
    (h : value.decoded = none) :
    AssetValidator (some t) value = .error .decodeError := by
  simp [AssetValidator, h]

/-- Witness for C5 at a concrete undecodable file. -/
theorem asset_validator_decode_failure_witness :
    AssetValidator
      (some (AssetType.mk 0 "cover" ⟨false, false⟩ 0 0 2 (1/10) 0 [] []))
      (FieldFile.mk 5 none) = .error .decodeError :=
  asset_validator_decode_failure _ _ rfl

/-- C9: for a decodable file with an asset type set, the validator runs
the size, format, dimension and aspect checks independently and reports
the concatenation of all their violations together, never stopping at the
first failing check. -/
theorem asset_validator_accumulates (t : AssetType) (value : FieldFile)
    (file : DecodedImage) (h : value.decoded = some file) :
    AssetValidator (some t) value =
      (if t.validate_max_size value ++ t.validate_format file ++
          t.validate_dimensions file ++ t.validate_aspect file = [] then
        Except.ok ()
      else
        Except.error (.validationError (t.validate_max_size value ++
          t.validate_format file ++ t.validate_dimensions file ++
          t.validate_aspect file))) := by
  simp [AssetValidator, h, AssetType.get_validators, List.append_assoc]

/-- Witness for C9: a 50 by 50 image against a type requiring width at
least 100 yields exactly the dimension violation. -/
theorem asset_validator_accumulates_witness :
    AssetValidator
      (some (AssetType.mk 1 "logo" ⟨false, false⟩ 100 0 0 (1/100) 0 [] []))
      (FieldFile.mk 10 (some (DecodedImage.mk "png" 50 50))) =
      Except.error (.validationError [.widthTooSmall 100]) :=
  (asset_validator_accumulates
      (AssetType.mk 1 "logo" ⟨false, false⟩ 100 0 0 (1/100) 0 [] [])
      (FieldFile.mk 10 (some (DecodedImage.mk "png" 50 50)))
      (DecodedImage.mk "png" 50 50) rfl).trans (by
    norm_num [AssetType.validate_max_size, AssetType.validate_format,
      AssetType.validate_dimensions, AssetType.validate_aspect,
      Formats.isSet, Formats.flagFor])

/-- C10: when the asset has no asset type chosen, the validator performs
no checks and raises no violation, whatever the file contains. -/
theorem asset_validator_no_type (value : FieldFile) :
    AssetValidator none value = .ok () := rfl

/-- C3: `get_required` returns all asset types for `None`; for a model
class, the types whose `required_for` holds the kind; for a saved
instance, the types whose `required_for` holds the instance's kind minus
every type for which the instance already has a stored active asset. -/
theorem get_required_spec (db : DB) (k : ℕ) (p : ℤ) (t : AssetType) :
    get_required db .noModel = db.asset_types ∧
    (t ∈ get_required db (.model k) ↔
      t ∈ db.asset_types ∧ k ∈ t.required_for) ∧
    (t ∈ get_required db (.inst k (some p)) ↔
      t ∈ db.asset_types ∧ k ∈ t.required_for ∧
      ¬ ∃ a ∈ db.assets, a.active = true ∧ a.content_type_id = k ∧
        a.object_id = p ∧ a.asset_type_id = t.pk) :=
  ⟨rfl, by simp [get_required, List.mem_filter], mem_get_required_inst db k p t⟩

/-- The required pks of the reconciler, spelled out over the store. -/
lemma mem_required_pks (db : DB) (k : ℕ) (p : ℤ) (t : ℕ) :
    t ∈ required_pks db k p ↔
      ∃ ty ∈ db.asset_types, ty.pk = t ∧ k ∈ ty.required_for ∧
        ¬ ∃ a ∈ db.assets, a.active = true ∧ a.content_type_id = k ∧
          a.object_id = p ∧ a.asset_type_id = ty.pk := by
  simp only [required_pks, List.mem_toFinset, List.mem_map]
  constructor
  · rintro ⟨ty, hty, rfl⟩
    have h := (mem_get_required_inst db k p ty).mp hty
    exact ⟨ty, h.1, rfl, h.2.1, h.2.2⟩
  · rintro ⟨ty, hmem, rfl, hr, hnot⟩
    exact ⟨ty, (mem_get_required_inst db k p ty).mpr ⟨hmem, hr, hnot⟩, rfl⟩

/-- C2: the reconciler returns no violation iff every still-required type
(required for the host's kind and not satisfied by a stored active asset)
has exactly one active candidate of that type, and no type has more than
one active candidate. -/
theorem reconcile_ok_iff (db : DB) (k : ℕ) (p : ℤ)
    (rows : List AssetFormRow) :
    reconcile db k p rows = [] ↔
      (∀ t : ℕ,
        (∃ ty ∈ db.asset_types, ty.pk = t ∧ k ∈ ty.required_for ∧
          ¬ ∃ a ∈ db.assets, a.active = true ∧ a.content_type_id = k ∧
            a.object_id = p ∧ a.asset_type_id = ty.pk) →
        countActive rows t = 1) ∧
      (∀ t : ℕ, countActive rows t ≤ 1) := by
  rw [reconcile, formset_clean_eq_nil]
  constructor
  · rintro ⟨h1, h2⟩
    have hdup : ∀ t : ℕ, countActive rows t ≤ 1 := by
      intro t
      by_contra hgt
      have hmem : t ∈ (scanRows rows).2 :=
        (scanRows_snd_mem rows t).mpr (by omega)
      rw [h2] at hmem
      exact absurd hmem (Finset.not_mem_empty t)
    refine ⟨fun t hcond => ?_, hdup⟩
    have ht : t ∈ required_pks db k p := (mem_required_pks db k p t).mpr hcond
    have h1t : 1 ≤ countActive rows t := by
      by_contra hlt
      have hsd : t ∈ required_pks db k p \ (scanRows rows).1 :=
        Finset.mem_sdiff.mpr
          ⟨ht, fun hmem => hlt ((scanRows_fst_mem rows t).mp hmem)⟩
      rw [h1] at hsd
      exact absurd hsd (Finset.not_mem_empty t)
    have h2t := hdup t
    omega
  · rintro ⟨hall, hle⟩
    constructor
    · rw [Finset.sdiff_eq_empty_iff_subset]
      intro t ht
      rw [scanRows_fst_mem]
      have := hall t ((mem_required_pks db k p t).mp ht)
      omega
    · rw [Finset.eq_empty_iff_forall_not_mem]
      intro t hmem
      have h2 := (scanRows_snd_mem rows t).mp hmem
      have := hle t
      omega

/-- Counterexample to C4 as stated: with one required type and a single
active candidate row of that type, the set is clean, but turning that row
inactive introduces a missing-required violation — deactivating a row can
add a violation. -/
theorem reconcile_deactivate_counterexample :
    reconcile (DB.mk [AssetType.mk 0 "cover" ⟨false, false⟩ 0 0 0 0 0 [0] []]
        []) 0 1 [AssetFormRow.mk true (some 0)] = [] ∧
    reconcile (DB.mk [AssetType.mk 0 "cover" ⟨false, false⟩ 0 0 0 0 0 [0] []]
        []) 0 1 (deactivate [AssetFormRow.mk true (some 0)] 0) ≠ [] := by
  constructor
  · decide
  · decide

/-- Deactivating one row never increases the number of active candidates
of any type. -/
lemma countActive_deactivate_le (rows : List AssetFormRow) (i t : ℕ) :
    countActive (deactivate rows i) t ≤ countActive rows t := by
  induction rows generalizing i with
  | nil => simp [deactivate]
  | cons r rs ih =>
    cases i with
    | zero =>
      have hd : deactivate (r :: rs) 0 =
          AssetFormRow.mk false r.asset_type :: rs := rfl
      have h1 : countActive (AssetFormRow.mk false r.asset_type :: rs) t =
          countActive rs t := by
        rw [countActive_cons]
        simp
      rw [hd, h1, countActive_cons]
      exact Nat.le_add_left _ _
    | succ n =>
      have hd : deactivate (r :: rs) (n + 1) = r :: deactivate rs n := rfl
      rw [hd, countActive_cons, countActive_cons]
      exact Nat.add_le_add_left (ih n) _

/-- C4 amended: turning one candidate row from active to inactive, with
all other rows fixed, can only shrink the duplicated-types set (it never
adds a duplicate violation) and can only grow the missing-required set
(it may add a missing-required violation, as the counterexample shows,
but never cures one). -/
theorem reconcile_deactivate_monotone (required : Finset ℕ)
    (rows : List AssetFormRow) (i : ℕ) :
    (scanRows (deactivate rows i)).2 ⊆ (scanRows rows).2 ∧
    required \ (scanRows rows).1 ⊆
      required \ (scanRows (deactivate rows i)).1 := by
  constructor
  · intro t ht
    rw [scanRows_snd_mem] at ht ⊢
    have := countActive_deactivate_le rows i t
    omega
  · intro t ht
    rw [Finset.mem_sdiff] at ht ⊢
    refine ⟨ht.1, fun hmem => ht.2 ?_⟩
    rw [scanRows_fst_mem] at hmem ⊢
    have := countActive_deactivate_le rows i t
    omega

/-- C6: deleting an `Asset` appends exactly one `DeletedAsset` carrying
the identical blob reference, asset type and host identity, and issues no
blob-store deletion. -/
theorem delete_asset_spec (s : StoreState) (a : Asset) :
    (delete_asset s a).1.deleted_assets = s.deleted_assets ++
      [DeletedAsset.mk s.next_pk a.image a.asset_type_id a.content_type_id
        a.object_id] ∧
    (delete_asset s a).2 = [] :=
  ⟨rfl, rfl⟩

/-- C7: `recover` appends exactly one new `Asset` which is inactive and
carries the deleted asset's blob reference, asset type and host identity,
removes the `DeletedAsset` row, issues no blob-store deletion, and
returns the created asset. -/
theorem recover_spec (s : StoreState) (d : DeletedAsset) :
    (recover s d).1.1.assets = s.assets ++ [(recover s d).1.2] ∧
    (recover s d).1.2.active = false ∧
    (recover s d).1.2.image = d.image ∧
    (recover s d).1.2.asset_type_id = d.asset_type_id ∧
    (recover s d).1.2.content_type_id = d.content_type_id ∧
    (recover s d).1.2.object_id = d.object_id ∧
    (recover s d).1.1.deleted_assets =
      s.deleted_assets.filter (fun x => x.pk != d.pk) ∧
    (recover s d).2 = [] :=
  ⟨rfl, rfl, rfl, rfl, rfl, rfl, rfl, rfl⟩

/-- C8: purging a `DeletedAsset` deletes its blob from storage exactly
once, and purge is the only lifecycle operation that deletes a blob:
asset deletion and recovery issue no blob-store deletion at all. -/
theorem purge_deletes_blob_once (s s2 s3 : StoreState) (d : DeletedAsset)
    (a : Asset) :
    (delete_deleted_asset s d).2 = [BlobOp.deleteBlob d.image] ∧
    (delete_asset s2 a).2 = [] ∧
    (recover s3 d).2 = [] :=
  ⟨rfl, rfl, rfl⟩

end ImageAssets
